import Mathlib

/-!
Verification development for the Go SDK connection core (`dsdk` package):
error classification (`translateErrors`), the retry loop (`retry`), the
authenticated single attempt (`do` / `doWithAuth`), the auth session
(`Login` / `Logout`), the list paginator (`GetList`), and the
`ListParams` query-map conversions.

The Go code is shallowly embedded: network and JSON I/O are replaced by
oracles giving, per attempt, the outcome the code would observe after
`translateErrors` (respectively after decoding a page envelope); Go `int`
is `Int`; Go maps from string to string are functions `String → String`
with the Go zero-value convention that a missing key reads as `""`;
unbounded recursion is made total with an explicit fuel argument, `none`
(or a dedicated constructor) marking fuel exhaustion.
-/

namespace DSdk

/-! ## Error taxonomy (source: package-level `var` block) -/

def RetryTimeoutSecs : Nat := 300
def InvalidRequest : Nat := 400
def PermissionDenied : Nat := 401
def Retry503 : Nat := 503
def ConnectionError : Nat := 9998
def RetryRequestAfterLogin : Nat := 9999

/-- Go `error` values the core produces: the sentinel errors of the
`badStatus` map, a raw transport error carrying its message, and
`ErrRetryTimeout`. -/
inductive GoError where
  | badStatus (code : Nat)
  | transport (msg : String)
  | retryTimeout
  deriving DecidableEq, Repr

/-- The message of each `badStatus` sentinel (`fmt.Errorf` text). -/
def badStatusText (code : Nat) : String :=
  if code = InvalidRequest then "InvalidRequest"
  else if code = PermissionDenied then "PermissionDenied"
  else if code = Retry503 then "Retry503"
  else if code = ConnectionError then "ConnectionError"
  else if code = RetryRequestAfterLogin then "RetryRequestAfterLogin"
  else ""

/-- The text `err.Error()` returns for the errors the core handles. -/
def GoError.text : GoError → String
  | .badStatus c => badStatusText c
  | .transport m => m
  | .retryTimeout => "timeout reached before request completed successfully during retries"

/-- Reading `badStatus[code]` as a map lookup: `some` exactly on the five keys of
the Go map, `none` (Go `nil`) otherwise. -/
def badStatusGet (code : Nat) : Option GoError :=
  if code = InvalidRequest ∨ code = PermissionDenied ∨ code = Retry503 ∨
     code = ConnectionError ∨ code = RetryRequestAfterLogin then
    some (.badStatus code)
  else none

/-- Is `needle` an initial segment of `hay`? -/
def charsLeadWith : List Char → List Char → Bool
  | [], _ => true
  | _ :: _, [] => false
  | a :: as, b :: bs => a = b && charsLeadWith as bs

/-- Does `needle` occur contiguously inside `hay`? -/
def charsHaveSub (needle : List Char) : List Char → Bool
  | [] => needle.isEmpty
  | b :: bs => charsLeadWith needle (b :: bs) || charsHaveSub needle bs

/-- Go `strings.Contains hay needle`. -/
def strContains (hay needle : String) : Bool :=
  charsHaveSub needle.data hay.data

/-- Whether an error's message matches `"connect: connection refused"`
(the test used both in `translateErrors` and in `retry`). -/
def textHasConnRefused (s : String) : Bool :=
  strContains s "connect: connection refused"

/-! ## Data model (source: struct declarations) -/

/-- The `ApiErrorResponse` struct, field for field.  Go `int` is `Int`; the two
string-to-string maps are association lists so equality stays decidable. -/
structure ApiErrorResponse where
  Name : String := ""
  Code : Int := 0
  Http : Int := 0
  Message : String := ""
  Ts : String := ""
  Version : String := ""
  Op : String := ""
  Tenant : String := ""
  Path : String := ""
  Params : List (String × String) := []
  ConnInfo : List (String × String) := []
  ClientId : String := ""
  ClientType : String := ""
  Id : Int := 0
  TenancyClass : String := ""
  Errors : List String := []
  deriving DecidableEq, Repr

/-- What the code observes of a `grequests` response: whether the status
is a success (`resp.Ok`), the numeric status code, and the
`ApiErrorResponse` that decoding the body into a zero value produces
(fields the body omits, or a body that fails to decode, leave the zero
value in place, which is how `translateErrors` uses it). -/
structure HttpResp where
  ok : Bool
  statusCode : Nat
  body : ApiErrorResponse
  deriving Repr

/-! ## Error classifier (source: `translateErrors`) -/

/-- Source `translateErrors`: the transport error (as its message) or the
response is turned into an `(*ApiErrorResponse, error)` pair. -/
def translateErrors (err : Option String) (resp : HttpResp) :
    Option ApiErrorResponse × Option GoError :=
  match err with
  | some m =>
    if textHasConnRefused m then (none, badStatusGet ConnectionError)
    else (none, some (.transport m))
  | none =>
    if !resp.ok then
      let eresp := resp.body
      let eresp := if eresp.Http = 0 then { eresp with Http := (resp.statusCode : Int) } else eresp
      (some eresp, badStatusGet resp.statusCode)
    else (none, none)

/-! ## Retry loop (source: `retry`)

`retry` repeatedly calls `do` (with its retry flag off).  The embedding
abstracts each such inner call into an oracle `att n` giving the
`(*ApiErrorResponse, error)` pair of the `n`-th attempt, and `dur n`
giving the wall-clock seconds the `n`-th attempt itself consumes.  The
loop guard compares elapsed seconds against `RetryTimeoutSecs`.

The Go loop body declares `apiresp, err := c.do(...)` with `:=`, which
creates fresh variables shadowing the `var apiresp *ApiErrorResponse`
declared before the loop; the timeout return statement reads the outer
variable, which therefore is still `nil`.  The embedding reproduces
this: the timeout result carries `none` as its `apiresp`. -/

structure AttemptResult where
  apiresp : Option ApiErrorResponse
  err : Option GoError
  deriving DecidableEq, Repr

/-- Result of the retry loop plus instrumentation: seconds slept between
attempts (in order) and number of attempts issued. -/
structure RetryRun where
  apiresp : Option ApiErrorResponse
  err : Option GoError
  sleeps : List Nat
  attempts : Nat
  deriving DecidableEq, Repr

/-- One execution of the `retry` loop from attempt index `i`, elapsed
seconds `e`, with `b` sleeps already performed (the Go `backoff`
variable equals `b + 1`).  `none` is fuel exhaustion (unreachable from
`retryRun` below, since every iteration advances `e` by at least 1 and
the guard stops at `RetryTimeoutSecs`). -/
def retryLoop (att : Nat → AttemptResult) (dur : Nat → Nat) :
    Nat → Nat → Nat → Nat → Option RetryRun
  | 0, _, _, _ => none
  | fuel + 1, i, e, b =>
    if e < RetryTimeoutSecs then
      let r := att i
      if r.apiresp = none ∧ r.err = none then
        some ⟨none, none, [], 1⟩
      else if (r.apiresp.map fun a => a.Http != 503).getD false then
        some ⟨r.apiresp, none, [], 1⟩
      else if (r.err.map fun t => !textHasConnRefused t.text).getD false then
        some ⟨none, r.err, [], 1⟩
      else
        match retryLoop att dur fuel (i + 1) (e + dur i + (b + 1) * (b + 1)) (b + 1) with
        | none => none
        | some rest => some ⟨rest.apiresp, rest.err, (b + 1) * (b + 1) :: rest.sleeps, rest.attempts + 1⟩
    else
      -- timeout: `return apiresp, ErrRetryTimeout` reads the outer,
      -- never-assigned `apiresp`, hence `none`
      some ⟨none, some .retryTimeout, [], 0⟩

/-- Source `retry` itself: loop from a fresh start (`backoff := 1`, no elapsed
time).  Fuel `RetryTimeoutSecs + 1` is enough for every input, since the
elapsed counter grows by at least one per iteration. -/
def retryRun (att : Nat → AttemptResult) (dur : Nat → Nat) : Option RetryRun :=
  retryLoop att dur (RetryTimeoutSecs + 1) 0 0 0

/-! ## Request pipeline and auth session (source: `do`, `doWithAuth`,
`Login`, `Logout`, `hasLoggedIn`)

The network is an oracle: `srv.main n` is the `translateErrors` outcome
of the `n`-th request to the caller's endpoint, `srv.login n` that of
the `n`-th request to the login endpoint, and `srv.key n` the `key`
field the login response body decodes to.  The connection state carries
the session token (`apikey`, with `""` meaning logged out, exactly as
`hasLoggedIn` reads it) and the two request counters.  The mutex does
not appear: these are the single-caller semantics, which is what the
claims quantify over.

`do` is genuinely recursive (the 401 branch replays the call after
`Logout`/`Login`, and `Login` itself goes through `do`); the fuel
argument makes it total, `none` marking a run that has not returned
within the given depth. -/

structure Srv where
  main : Nat → AttemptResult
  login : Nat → AttemptResult
  key : Nat → String

structure ConnSt where
  apikey : String
  mainCalls : Nat
  loginCalls : Nat
  deriving DecidableEq, Repr

/-- Which endpoint a `do` call targets, fixing which oracle stream the
network hit consumes. -/
inductive Endp where
  | mainEp
  | loginEp
  deriving DecidableEq, Repr

/-- Issue one network request and classify it (`greq.DoRegularRequest`
followed by `translateErrors`). -/
def netHit (srv : Srv) (st : ConnSt) : Endp → ConnSt × AttemptResult
  | .mainEp => ({ st with mainCalls := st.mainCalls + 1 }, srv.main st.mainCalls)
  | .loginEp => ({ st with loginCalls := st.loginCalls + 1 }, srv.login st.loginCalls)

/-- Source `hasLoggedIn`. -/
def hasLoggedIn (st : ConnSt) : Bool := st.apikey != ""

mutual

/-- Source `do`: one attempt, the 401 re-auth replay, and the handoff to
`retry` when the retry flag is set and the outcome is a 503 or a
connection error. -/
def doCall (srv : Srv) : Nat → ConnSt → Endp → Bool → Bool → Option (ConnSt × AttemptResult)
  | 0, _, _, _, _ => none
  | fuel + 1, st, ep, retr, allowLogin => do
    let (st1, r) := netHit srv st ep
    if r.err = some (.badStatus PermissionDenied) then
      if allowLogin ∧ hasLoggedIn st1 then
        let st2 := { st1 with apikey := "" }  -- c.Logout()
        let (st3, lr) ← loginCall srv fuel st2
        if lr.apiresp ≠ none ∨ lr.err ≠ none then
          pure (st3, lr)
        else
          -- refresh the Auth-Token header, then replay once with the
          -- retry flag off and allowLogin passed through unchanged
          doCall srv fuel st3 ep false allowLogin
      else
        pure (st1, ⟨r.apiresp, none⟩)  -- return eresp, nil
    else if retr ∧ (r.err = some (.badStatus Retry503) ∨ r.err = some (.badStatus ConnectionError)) then
      retryCall srv fuel st1 ep allowLogin 0 0
    else if r.apiresp ≠ none then
      pure (st1, ⟨r.apiresp, none⟩)
    else if r.err ≠ none then
      pure (st1, ⟨none, r.err⟩)
    else
      -- success: the response body decodes into the caller's holder
      pure (st1, ⟨none, none⟩)

/-- The `retry` loop as entered from `do` (each inner attempt is a
`do` with its retry flag off).  `e` is elapsed seconds, the Go
`backoff` equals `b + 1` (network time is not counted here). -/
def retryCall (srv : Srv) : Nat → ConnSt → Endp → Bool → Nat → Nat → Option (ConnSt × AttemptResult)
  | 0, _, _, _, _, _ => none
  | fuel + 1, st, ep, allowLogin, e, b =>
    if e < RetryTimeoutSecs then do
      let (st1, r) ← doCall srv fuel st ep false allowLogin
      if r.apiresp = none ∧ r.err = none then
        pure (st1, ⟨none, none⟩)
      else if (r.apiresp.map fun a => a.Http != 503).getD false then
        pure (st1, ⟨r.apiresp, none⟩)
      else if (r.err.map fun t => !textHasConnRefused t.text).getD false then
        pure (st1, ⟨none, r.err⟩)
      else
        retryCall srv fuel st1 ep allowLogin (e + (b + 1) * (b + 1)) (b + 1)
    else
      pure (st, ⟨none, some .retryTimeout⟩)

/-- Source `Login`: short-circuit on a non-empty token, otherwise a sensitive
`PUT` to the login path through `do` with `canRetry` and `!allowLogin`;
on a permission-denied outcome clear the token, otherwise store the
decoded `login.Key` (the zero value `""` when the call failed before
decoding). -/
def loginCall (srv : Srv) : Nat → ConnSt → Option (ConnSt × AttemptResult)
  | 0, _ => none
  | fuel + 1, st =>
    if st.apikey ≠ "" then
      pure (st, ⟨none, none⟩)
    else do
      let (st1, r) ← doCall srv fuel st .loginEp true false
      let decodedKey := if r.apiresp = none ∧ r.err = none then srv.key (st1.loginCalls - 1) else ""
      let denied := ((r.apiresp.map fun a => a.Http == (PermissionDenied : Int)).getD false) ∨
        r.err = some (.badStatus PermissionDenied)
      let st2 := { st1 with apikey := if denied then "" else decodedKey }
      pure (st2, r)

end

/-- Source `Logout`: clear the token. -/
def logoutCall (st : ConnSt) : ConnSt := { st with apikey := "" }

/-- Source `doWithAuth`: log in first when no token is held (propagating a
login failure), attach tenant and token headers, then a `do` on the
caller's endpoint with `canRetry`, `!isSensitive` and `allowLogin`. -/
def doWithAuth (srv : Srv) : Nat → ConnSt → Option (ConnSt × AttemptResult)
  | 0, _ => none
  | fuel + 1, st => do
    if ¬ hasLoggedIn st then
      let (st1, lr) ← loginCall srv fuel st
      if lr.apiresp ≠ none ∨ lr.err ≠ none then
        pure (st1, lr)
      else
        doCall srv fuel st1 .mainEp true true
    else
      doCall srv fuel st .mainEp true true

/-! ## `strconv` as used by the list-params conversions

`ToMap` writes numbers with `strconv.FormatInt(v, 10)`;
`ListParamsFromMap` reads them with `strconv.ParseInt(s, 0, 0)`
(base 0: a decimal unless a `0b`/`0o`/`0x` prefix or a legacy leading
`0` selects another base; underscores are digit separators; bit size 0
is the 64-bit `int`).  Both are modelled at the character-list level. -/

/-- The character for a digit value below 10. -/
def decChar (d : Nat) : Char := Char.ofNat (48 + d)

/-- Decimal digits of `n`, least significant first (`[]` for 0); the
fuel only needs to be at least `n`. -/
def decDigitsRevA : Nat → Nat → List Char
  | 0, _ => []
  | f + 1, n => if n = 0 then [] else decChar (n % 10) :: decDigitsRevA f (n / 10)

/-- Decimal digits of `n`, least significant first (`[]` for 0). -/
def decDigitsRev (n : Nat) : List Char := decDigitsRevA n n

/-- Decimal notation for `n`. -/
def natChars (n : Nat) : List Char :=
  if n = 0 then ['0'] else (decDigitsRev n).reverse

/-- Go `strconv.FormatInt(v, 10)`. -/
def formatInt (v : Int) : String :=
  ⟨if v < 0 then '-' :: natChars v.natAbs else natChars v.natAbs⟩

/-- Value of a character as a digit in the given base, following
`ParseUint`: `0`-`9`, then case-insensitive letters from 10 up, and
only digits below the base. -/
def digitVal (base : Nat) (c : Char) : Option Nat :=
  let d :=
    if '0' ≤ c ∧ c ≤ '9' then some (c.toNat - 48)
    else if 'a' ≤ c ∧ c ≤ 'z' then some (c.toNat - 97 + 10)
    else if 'A' ≤ c ∧ c ≤ 'Z' then some (c.toNat - 65 + 10)
    else none
  match d with
  | some d => if d < base then some d else none
  | none => none

/-- Base detection of `ParseUint` with base 0 on the sign-stripped
input: `0b`/`0o`/`0x` prefixes need at least one further character; any
other leading `0` selects the legacy octal base. -/
def splitBase (l : List Char) : Nat × List Char :=
  match l with
  | c :: rest =>
    if c = '0' then
      match rest with
      | c2 :: t =>
        if (c2 = 'b' ∨ c2 = 'B') ∧ t ≠ [] then (2, t)
        else if (c2 = 'o' ∨ c2 = 'O') ∧ t ≠ [] then (8, t)
        else if (c2 = 'x' ∨ c2 = 'X') ∧ t ≠ [] then (16, t)
        else (8, c2 :: t)
      | [] => (8, [])
    else (10, l)
  | [] => (10, [])

/-- The digit loop of `ParseUint`: underscores are skipped (base 0
permits them, their placement is checked separately), any other
non-digit is a syntax error. -/
def digitsLoop (base : Nat) : Nat → List Char → Option Nat
  | n, [] => some n
  | n, c :: t =>
    if c = '_' then digitsLoop base n t
    else
      match digitVal base c with
      | some d => digitsLoop base (n * base + d) t
      | none => none

/-- Function `underscoreOK` of `strconv`: each underscore must sit between a
base prefix or digit and a digit.  The scan state is `0` at the start,
`1` after a digit or base prefix, `2` after an underscore and `3` after
any other character. -/
def underscoreScan (hexOk : Bool) : Nat → List Char → Bool
  | saw, [] => saw ≠ 2
  | saw, c :: t =>
    if ('0' ≤ c ∧ c ≤ '9') ∨ (hexOk ∧ (('a' ≤ c ∧ c ≤ 'f') ∨ ('A' ≤ c ∧ c ≤ 'F'))) then
      underscoreScan hexOk 1 t
    else if c = '_' then
      if saw ≠ 1 then false else underscoreScan hexOk 2 t
    else if saw = 2 then false
    else underscoreScan hexOk 3 t

def underscoreOK (s : List Char) : Bool :=
  let s1 := match s with
    | c :: t => if c = '-' ∨ c = '+' then t else c :: t
    | [] => []
  match s1 with
  | '0' :: c :: t =>
    if c = 'b' ∨ c = 'B' ∨ c = 'o' ∨ c = 'O' ∨ c = 'x' ∨ c = 'X' then
      underscoreScan (c = 'x' ∨ c = 'X') 1 t
    else underscoreScan false 0 s1
  | _ => underscoreScan false 0 s1

/-- Go `strconv.ParseInt(s, 0, 0)`: `none` is any error (syntax or range),
on which `ListParamsFromMap` panics. -/
def parseIntB0 (s : String) : Option Int :=
  match s.data with
  | [] => none
  | cs =>
    let neg := cs.head? = some '-'
    let cs1 := match cs with
      | c :: t => if c = '-' ∨ c = '+' then t else c :: t
      | [] => []
    if cs1 = [] then none
    else
      let (base, ds) := splitBase cs1
      match digitsLoop base 0 ds with
      | none => none
      | some un =>
        if ds.contains '_' ∧ ¬ underscoreOK cs1 then none
        else if (¬ neg ∧ un ≥ 2 ^ 63) ∨ (neg ∧ un > 2 ^ 63) then none
        else some (if neg then -(un : Int) else (un : Int))

/-! ## List params (source: `ListParams`, `ToMap`, `ListParamsFromMap`)

A Go `map[string]string` is modelled as a total function: reading a
missing key yields the zero value `""` (which is also how the code
distinguishes present from absent entries), and `ToMap` never stores an
empty string. -/

def GoStrMap : Type := String → String

def emptyStrMap : GoStrMap := fun _ => ""

structure ListParams where
  Filter : String := ""
  Limit : Int := 0
  «Sort» : String := ""
  Offset : Int := 0
  deriving DecidableEq, Repr

/-- Source `ListParams.ToMap`: emit only non-empty / non-zero fields. -/
def ListParams.ToMap (s : ListParams) : GoStrMap := fun k =>
  if k = "filter" ∧ s.Filter ≠ "" then s.Filter
  else if k = "limit" ∧ s.Limit ≠ 0 then formatInt s.Limit
  else if k = "sort" ∧ s.«Sort» ≠ "" then s.«Sort»
  else if k = "offset" ∧ s.Offset ≠ 0 then formatInt s.Offset
  else ""

/-- Source `ListParamsFromMap`: take `filter`/`sort` as read, parse
`offset`/`limit` when non-empty (panicking, i.e. `none`, when
`ParseInt` fails), default them to 0 otherwise. -/
def ListParamsFromMap (m : GoStrMap) : Option ListParams := do
  let filter := m "filter"
  let sort := m "sort"
  let offset ← if m "offset" ≠ "" then parseIntB0 (m "offset") else some 0
  let limit ← if m "limit" ≠ "" then parseIntB0 (m "limit") else some 0
  pure { Filter := filter, Limit := limit, «Sort» := sort, Offset := offset }

/-! ## List paginator (source: `GetList`)

Each underlying `doWithAuth` GET is abstracted into an oracle value: the
`(*ApiErrorResponse, error)` pair it returns, plus the `Data` and
`Metadata` fields the result holder ends up with (for a call that fails
before decoding these are the values already in the holder, i.e. `[]`
and the previous metadata; the oracle is free to express that).
`first` is the page-1 call with the caller's options; `cont n` is the
`n`-th continuation call.  Metadata is an association list of JSON
values so that `len(rs.Metadata) > 0` and the
`rs.Metadata["total_count"].(float64)` type assertion can be read off;
a JSON number is written `JVal.num q` (`encoding/json` decodes every
number into `float64`; the claims only involve integral counts and the
Go `int(·)` conversion is exact on them). -/

inductive JVal where
  | num (q : Int)
  | str (s : String)
  | other
  deriving DecidableEq, Repr

abbrev Metadata := List (String × JVal)

structure PageResp (α : Type) where
  apiresp : Option ApiErrorResponse
  err : Option GoError
  data : List α
  md : Metadata

/-- Outcome of `GetList`: a normal return (result-holder data and the
`(*ApiErrorResponse, error)` pair), a runtime panic (failed type
assertion in the loop or a `ListParamsFromMap` parse panic), or fuel
exhaustion standing for a run that has not returned. -/
inductive GLOut (α : Type) where
  | ok (data : List α) (apiresp : Option ApiErrorResponse) (err : Option GoError)
  | panic
  | fuelOut
  deriving DecidableEq, Repr

/-- The options map `ro.Params` may be the nil map. -/
def getParams (p : Option GoStrMap) : GoStrMap :=
  match p with
  | none => emptyStrMap
  | some m => m

/-- Advance the offset in the caller's options: a nil map is replaced by
`ListParams{Offset: o}.ToMap()`, otherwise only the `offset` key is
rewritten in place. -/
def setOffsetParam (p : Option GoStrMap) (o : Nat) : Option GoStrMap :=
  match p with
  | none => some (ListParams.ToMap { Offset := (o : Int) })
  | some m => some (fun k => if k = "offset" then formatInt (o : Int) else m k)

/-- The accumulation loop of `GetList`.  `ldata` is the loop variable
of the same name: it is bound once to the length of the page-1 data and
never updated, and the guard compares it against the *outer* `tcnt`,
which stays 0 (the `tcnt :=` inside the body shadows it), so the guard
is simply `ldata ≠ 0` on every round.  `data` is the accumulator,
`curData`/`curMd` the result holder's current fields, `off` the `offset`
variable and `n` the index of the next continuation call.  The second
component of the result lists the offsets the continuation calls were
issued with. -/
def glLoop (cont : Nat → PageResp α) (ldata : Nat) (err0 : Option GoError) :
    Nat → Nat → Option GoStrMap → List α → List α → Metadata → Nat →
    GLOut α × List Nat
  | 0, _, _, _, _, _, _ => (.fuelOut, [])
  | fuel + 1, n, params, data, curData, curMd, off =>
    if ldata = 0 then
      -- loop guard `ldata != tcnt` is false: fall through to
      -- `rs.Data = data; return rs, apiresp, err` with the outer pair
      (.ok data none err0, [])
    else
      match curMd.lookup "total_count" with
      | some (.num tcnt) =>
        let off' := off + curData.length
        if (off' : Int) ≥ tcnt then (.ok data none err0, [])
        else
          let params' := setOffsetParam params off'
          let resp := cont n
          if resp.apiresp ≠ none ∨ resp.err ≠ none then
            -- rs.Data = data; return rs, apiresp, err (the inner pair)
            (.ok data resp.apiresp resp.err, [off'])
          else
            let (res, offs) :=
              glLoop cont ldata err0 fuel (n + 1) params' (data ++ resp.data) resp.data resp.md off'
            (res, off' :: offs)
      | _ => (.panic, [])  -- rs.Metadata["total_count"].(float64) panics

/-- Source `GetList`: the page-1 call, then — when it produced no API error
and decoded a non-empty metadata map and the caller set neither an
explicit limit nor an explicit offset — the accumulation loop. -/
def GetList (first : PageResp α) (cont : Nat → PageResp α)
    (params : Option GoStrMap) (fuel : Nat) : GLOut α × List Nat :=
  if first.apiresp = none ∧ first.md.length > 0 then
    match ListParamsFromMap (getParams params) with
    | none => (.panic, [])
    | some lp =>
      if lp.Limit ≠ 0 ∨ lp.Offset ≠ 0 then
        (.ok first.data first.apiresp first.err, [])
      else
        glLoop cont first.data.length first.err fuel 0 params first.data first.data first.md 0
  else
    (.ok first.data first.apiresp first.err, [])

/-! ## Specification-side helpers

These are written from the specified behaviour, to be compared against
the embedded code in the theorems below. -/

/-- An attempt outcome the retry loop keeps retrying on (it reaches the
sleep): not a success, any API error carries HTTP status 503, and any
transport error message matches the connection-refused test. -/
def sleepsAfter (r : AttemptResult) : Prop :=
  ¬ (r.apiresp = none ∧ r.err = none) ∧
  (r.apiresp = none ∨ ∃ a, r.apiresp = some a ∧ a.Http = 503) ∧
  (r.err = none ∨ ∃ t, r.err = some t ∧ textHasConnRefused t.text = true)

/-- An attempt outcome the retry loop must surface at once: an API
error with HTTP status other than 503, or a transport error whose
message does not indicate a refused connection. -/
def stopsRetry (r : AttemptResult) : Prop :=
  (∃ a, r.apiresp = some a ∧ a.Http ≠ 503 ∧ r.err = none) ∨
  (r.apiresp = none ∧ ∃ t, r.err = some t ∧ textHasConnRefused t.text = false)

/-- Seconds the retry loop spends on attempts `i, i+1, …` during `n`
retried rounds when `b` sleeps happened already: attempt time plus the
squared escalating backoff. -/
def elCost (dur : Nat → Nat) : Nat → Nat → Nat → Nat
  | _, _, 0 => 0
  | i, b, n + 1 => dur i + (b + 1) * (b + 1) + elCost dur (i + 1) (b + 1) n

/-- The backoff sleeps of `n` retried rounds after `b` earlier sleeps:
`(b+1)², (b+2)², …`. -/
def sleepsList : Nat → Nat → List Nat
  | _, 0 => []
  | b, n + 1 => (b + 1) * (b + 1) :: sleepsList (b + 1) n

/-- Specified pagination: starting before continuation call `n` with
`off` items fetched before the current page and `curLen` items on it,
append further pages until the accumulated count reaches or exceeds the
total count. -/
def pagesSpec (cont : Nat → PageResp α) (tcnt : Int) :
    Nat → Nat → Nat → Nat → List α
  | 0, _, _, _ => []
  | fuel + 1, n, off, curLen =>
    if ((off + curLen : Nat) : Int) ≥ tcnt then []
    else (cont n).data ++ pagesSpec cont tcnt fuel (n + 1) (off + curLen) (cont n).data.length

/-- The offsets the specified pagination fetches with. -/
def pagesOffsets (cont : Nat → PageResp α) (tcnt : Int) :
    Nat → Nat → Nat → Nat → List Nat
  | 0, _, _, _ => []
  | fuel + 1, n, off, curLen =>
    if ((off + curLen : Nat) : Int) ≥ tcnt then []
    else (off + curLen) :: pagesOffsets cont tcnt fuel (n + 1) (off + curLen) (cont n).data.length

/-- The items of continuation pages `n0, …, n0+k-1` in fetch order. -/
def concatFrom (cont : Nat → PageResp α) : Nat → Nat → List α
  | _, 0 => []
  | n0, k + 1 => (cont n0).data ++ concatFrom cont (n0 + 1) k

/-- The offsets of `k+1` continuation fetches starting before call
`n0`, `off` items fetched before the current page and `cur` items on
it (the last listed fetch is the one that fails). -/
def failOffsets (cont : Nat → PageResp α) : Nat → Nat → Nat → Nat → List Nat
  | _, off, cur, 0 => [off + cur]
  | n0, off, cur, k + 1 =>
    (off + cur) :: failOffsets cont (n0 + 1) (off + cur) (cont n0).data.length k

/-! ## Concrete instances used in the closed theorems -/

def err400 : ApiErrorResponse := { Http := 400 }
def err401 : ApiErrorResponse := { Http := 401 }
def err503 : ApiErrorResponse := { Http := 503 }

/-- Every attempt comes back as a 503 (`do` hands `retry` the decoded
`ApiErrorResponse` with a nil error). -/
def att503 : Nat → AttemptResult := fun _ => ⟨some err503, none⟩

/-- Every attempt comes back as a refused connection: `translateErrors`
has already turned the transport error into `badStatus[ConnectionError]`
(whose message is `"ConnectionError"`), and `do` with its retry flag off
returns it as the error with a nil `ApiErrorResponse`. -/
def attConnRefused : Nat → AttemptResult := fun _ => ⟨none, some (.badStatus ConnectionError)⟩

/-- The first `k` attempts are 503s, then success. -/
def att503until (k : Nat) : Nat → AttemptResult :=
  fun n => if n < k then ⟨some err503, none⟩ else ⟨none, none⟩

def durZero : Nat → Nat := fun _ => 0

/-- A server that accepts every login (issuing key `"k"`) and answers
every authenticated request with 401. -/
def srvAlways401 : Srv where
  main := fun _ => ⟨some err401, some (.badStatus PermissionDenied)⟩
  login := fun _ => ⟨none, none⟩
  key := fun _ => "k"

/-- A server whose login succeeds with key `"sessionkey"`. -/
def srvLoginOk : Srv where
  main := fun _ => ⟨none, none⟩
  login := fun _ => ⟨none, none⟩
  key := fun _ => "sessionkey"

/-- A server that answers the login request itself with 401. -/
def srvLogin401 : Srv where
  main := fun _ => ⟨none, none⟩
  login := fun _ => ⟨some err401, some (.badStatus PermissionDenied)⟩
  key := fun _ => "k"

/-- A fresh connection: no session token, no calls made. -/
def connSt0 : ConnSt := ⟨"", 0, 0⟩

def mdTC (t : Int) : Metadata := [("total_count", JVal.num t)]

def pgOk (xs : List Nat) (md : Metadata) : PageResp Nat := ⟨none, none, xs, md⟩

/-- A failing page call: the holder keeps its cleared data. -/
def pgFail (e : ApiErrorResponse) : PageResp Nat := ⟨some e, none, [], []⟩

/-- Scenario of the spec: page 1 has 50 items and total count 120. -/
def sc4first : PageResp Nat := pgOk (List.range 50) (mdTC 120)

def sc4cont : Nat → PageResp Nat := fun n =>
  if n = 0 then pgOk (List.range' 50 50) (mdTC 120)
  else if n = 1 then pgOk (List.range' 100 20) (mdTC 120)
  else pgOk [] []

/-- An empty first page carrying a positive total count. -/
def c4exFirst : PageResp Nat := pgOk [] (mdTC 1)

def c4exCont : Nat → PageResp Nat := fun _ => pgOk [7] (mdTC 1)

/-- Page 1 has two items out of four; every continuation call fails. -/
def c3first : PageResp Nat := pgOk [0, 1] (mdTC 4)

def c3cont : Nat → PageResp Nat := fun _ => pgFail err400

/-- A successful first page with empty data and non-empty metadata that
has no `total_count` number. -/
def c10first : PageResp Nat := ⟨none, none, [], [("a", JVal.str "b")]⟩

def c10cont : Nat → PageResp Nat := fun _ => pgOk [] []

/-- A query map whose `limit` entry is numeric (legacy octal) but not
in the canonical decimal form `FormatInt` emits. -/
def c9map : GoStrMap := fun k => if k = "limit" then "07" else ""

/-! ## Theorems -/

/-- C5.  The error classifier: a transport error whose message
indicates a refused connection becomes the `ConnectionError` outcome
with no API error; any other transport error propagates unchanged; a
non-success status always yields an API error whose `Http` field is
defaulted to the response status when the body omitted it, paired with
`InvalidRequest` for 400, `PermissionDenied` for 401,
`RetryableServerError` for 503 and no retry class for any other
(well-formed, sub-1000) HTTP status; a success is `(nil, nil)`. -/
theorem claim_C5 (m : String) (resp : HttpResp) (hs : resp.statusCode < 1000) :
    (textHasConnRefused m = true →
      translateErrors (some m) resp = (none, some (.badStatus ConnectionError))) ∧
    (textHasConnRefused m = false →
      translateErrors (some m) resp = (none, some (.transport m))) ∧
    (resp.ok = false →
      translateErrors none resp =
        (some (if resp.body.Http = 0 then { resp.body with Http := (resp.statusCode : Int) }
               else resp.body),
         if resp.statusCode = 400 then some (.badStatus 400)
         else if resp.statusCode = 401 then some (.badStatus 401)
         else if resp.statusCode = 503 then some (.badStatus 503)
         else none)) ∧
    (resp.ok = true → translateErrors none resp = (none, none)) := by
  refine ⟨fun h => ?_, fun h => ?_, fun h => ?_, fun h => ?_⟩
  · simp [translateErrors, h, badStatusGet, ConnectionError, InvalidRequest,
      PermissionDenied, Retry503, RetryRequestAfterLogin]
  · simp [translateErrors, h]
  · simp only [translateErrors, h, Bool.not_false, if_true]
    refine Prod.ext rfl ?_
    simp only [badStatusGet, InvalidRequest, PermissionDenied, Retry503,
      ConnectionError, RetryRequestAfterLogin]
    rcases Nat.decEq resp.statusCode 400 with h4 | h4 <;>
      rcases Nat.decEq resp.statusCode 401 with h1 | h1 <;>
      rcases Nat.decEq resp.statusCode 503 with h5 | h5 <;>
      (simp_all; try omega)
  · simp [translateErrors, h]

/-- Witness for C5 at a concrete 503 response with an undecoded body. -/
theorem claim_C5_witness :
    translateErrors none ⟨false, 503, {}⟩ =
      (some { Http := 503 }, some (.badStatus 503)) := by
  simpa using (claim_C5 "" ⟨false, 503, {}⟩ (by decide)).2.2.1 rfl

/-- C2 (refuting evaluation).  When the retry budget elapses on a
server that answers 503 on every attempt, the loop returns `nil` as the
API error together with `ErrRetryTimeout` — not the 503
`ApiErrorResponse` seen on the last attempt — because the `:=` inside
the loop shadows the `apiresp` variable the timeout return reads. -/
theorem claim_C2 :
    retryRun att503 durZero =
      some ⟨none, some .retryTimeout, [1, 4, 9, 16, 25, 36, 49, 64, 81, 100], 10⟩ ∧
    (att503 9).apiresp = some err503 ∧
    some err503 ≠ (none : Option ApiErrorResponse) := by
  refine ⟨by decide, rfl, by simp⟩

/-- C8 (refuting evaluation, plus the 503 half).  On attempts that all
come back as refused connections the retry loop returns after the first
attempt with no sleep at all — the translated error's message
`"ConnectionError"` no longer contains `"connect: connection refused"`,
so the loop's retry test misses it — while a run of 503s is retried
with the 1, 4, 9, 16 second backoff. -/
theorem claim_C8 :
    retryRun attConnRefused durZero =
      some ⟨none, some (.badStatus ConnectionError), [], 1⟩ ∧
    retryRun (att503until 4) durZero = some ⟨none, none, [1, 4, 9, 16], 5⟩ := by
  exact ⟨by decide, by decide⟩

/-- Any `n` retried rounds take at least `n` seconds. -/
theorem elCost_ge (dur : Nat → Nat) : ∀ n i b, n ≤ elCost dur i b n := by
  intro n
  induction n with
  | zero => intro i b; simp [elCost]
  | succ n ih =>
    intro i b
    have h := ih (i + 1) (b + 1)
    simp only [elCost]
    nlinarith

/-- If attempts `i, …, i+n-1` all keep the retry loop going and attempt
`i+n` stops it, the loop returns attempt `i+n`'s outcome right after
issuing it, having slept exactly between the earlier attempts. -/
theorem retryLoop_stops (att : Nat → AttemptResult) (dur : Nat → Nat) :
    ∀ n i e b fuel,
      (∀ j, j < n → sleepsAfter (att (i + j))) →
      stopsRetry (att (i + n)) →
      e + elCost dur i b n < RetryTimeoutSecs →
      n + 1 ≤ fuel →
      retryLoop att dur fuel i e b =
        some ⟨(att (i + n)).apiresp, (att (i + n)).err, sleepsList b n, n + 1⟩ := by
  intro n
  induction n with
  | zero =>
    intro i e b fuel _ hstop htime hfuel
    obtain ⟨fuel, rfl⟩ : ∃ f, fuel = f + 1 := ⟨fuel - 1, by omega⟩
    simp only [elCost, Nat.add_zero] at htime
    simp only [Nat.add_zero] at hstop ⊢
    rcases hstop with ⟨a, ha, h503, herr⟩ | ⟨hnone, t, ht, href⟩
    · simp [retryLoop, htime, ha, herr, h503, sleepsList]
    · simp [retryLoop, htime, hnone, ht, href, sleepsList]
  | succ n ih =>
    intro i e b fuel hpre hstop htime hfuel
    obtain ⟨fuel, rfl⟩ : ∃ f, fuel = f + 1 := ⟨fuel - 1, by omega⟩
    have hi : sleepsAfter (att i) := by simpa using hpre 0 (by omega)
    obtain ⟨hns, hapi, herr⟩ := hi
    have hguard : e < RetryTimeoutSecs := by
      have h1 : 1 ≤ elCost dur i b (n + 1) := le_trans (by omega) (elCost_ge dur (n + 1) i b)
      omega
    have hrec := ih (i + 1) (e + dur i + (b + 1) * (b + 1)) (b + 1) fuel
      (fun j hj => by
        have := hpre (j + 1) (by omega)
        simpa [Nat.add_assoc, Nat.add_comm 1 j] using this)
      (by rw [show i + 1 + n = i + (n + 1) from by omega]; exact hstop)
      (by simp only [elCost] at htime; omega)
      (by omega)
    have hstep : retryLoop att dur (fuel + 1) i e b =
        match retryLoop att dur fuel (i + 1) (e + dur i + (b + 1) * (b + 1)) (b + 1) with
        | none => none
        | some rest =>
          some ⟨rest.apiresp, rest.err, (b + 1) * (b + 1) :: rest.sleeps, rest.attempts + 1⟩ := by
      rcases hapi with hn | ⟨a, ha, h503⟩
      · rcases herr with he | ⟨t, ht, href⟩
        · exact absurd ⟨hn, he⟩ hns
        · simp [retryLoop, hguard, hn, ht, href]
      · rcases herr with he | ⟨t, ht, href⟩
        · simp [retryLoop, hguard, ha, h503, he]
        · simp [retryLoop, hguard, ha, h503, ht, href]
    rw [hstep, hrec]
    have hidx : i + 1 + n = i + (n + 1) := by omega
    simp [hidx, sleepsList]

/-- C7.  Any attempt inside the retry loop that yields an API error
with HTTP status other than 503, or a transport error whose message
does not indicate a refused connection, is returned as soon as it is
observed: no further sleep, no further attempt. -/
theorem claim_C7 (att : Nat → AttemptResult) (dur : Nat → Nat) (i : Nat)
    (hpre : ∀ j, j < i → sleepsAfter (att j))
    (hstop : stopsRetry (att i))
    (htime : elCost dur 0 0 i < RetryTimeoutSecs) :
    retryRun att dur =
      some ⟨(att i).apiresp, (att i).err, sleepsList 0 i, i + 1⟩ := by
  have hfuel : i + 1 ≤ RetryTimeoutSecs + 1 := by
    have := elCost_ge dur i 0 0
    simp only [RetryTimeoutSecs] at htime ⊢
    omega
  have h := retryLoop_stops att dur i 0 0 0 (RetryTimeoutSecs + 1)
    (by simpa using hpre) (by simpa using hstop) (by simpa using htime) hfuel
  simpa [retryRun] using h

/-- Witness for C7: a first attempt answered 400 is returned at once. -/
theorem claim_C7_witness :
    retryRun (fun _ => ⟨some err400, none⟩) durZero =
      some ⟨some err400, none, [], 1⟩ := by
  have h := claim_C7 (fun _ => ⟨some err400, none⟩) durZero 0
    (by omega) (Or.inl ⟨err400, rfl, by decide, rfl⟩) (by decide)
  simpa [sleepsList] using h

theorem srvAlways401_main (i : Nat) :
    srvAlways401.main i = ⟨some err401, some (.badStatus PermissionDenied)⟩ := rfl

theorem srvAlways401_login (i : Nat) : srvAlways401.login i = ⟨none, none⟩ := rfl

/-- Against the always-401 server a login-endpoint `do` succeeds on its
single network hit. -/
theorem doCall_login_always401 (f : Nat) (st : ConnSt) (retr allow : Bool) :
    doCall srvAlways401 (f + 1) st .loginEp retr allow =
      some ({ st with loginCalls := st.loginCalls + 1 }, ⟨none, none⟩) := by
  simp [doCall, netHit, srvAlways401]

/-- Against the always-401 server, `Login` on a token-less connection
either runs out of fuel or stores the key `"k"`. -/
theorem loginCall_always401 (f : Nat) (st : ConnSt) (h : st.apikey = "") :
    loginCall srvAlways401 f st = none ∨
      loginCall srvAlways401 f st =
        some (⟨"k", st.mainCalls, st.loginCalls + 1⟩, ⟨none, none⟩) := by
  match f with
  | 0 => exact Or.inl rfl
  | 1 =>
    refine Or.inl ?_
    simp [loginCall, h, doCall]
  | g + 2 =>
    refine Or.inr ?_
    rw [loginCall]
    simp only [h, ite_false, reduceIte]
    rw [doCall_login_always401]
    simp [srvAlways401]

/-- Against the always-401 server, a main-endpoint `do` on a connection
that holds a token never returns, whatever the fuel: every 401 triggers
a further Logout+Login+replay cycle, since the replay keeps
`allowLogin` set and the fresh login has restocked the token. -/
theorem doCall_main_always401 :
    ∀ (f : Nat) (st : ConnSt) (retr : Bool), st.apikey ≠ "" →
      doCall srvAlways401 f st .mainEp retr true = none := by
  intro f
  induction f with
  | zero => intro st retr _; rfl
  | succ f ih =>
    intro st retr h
    rcases loginCall_always401 f ⟨"", st.mainCalls + 1, st.loginCalls⟩ rfl with hnone | hsome
    · simp [doCall, netHit, srvAlways401_main, hasLoggedIn, bne_iff_ne, h, hnone]
    · simp [doCall, netHit, srvAlways401_main, hasLoggedIn, bne_iff_ne, h, hsome, ih]

/-- C1 (refuting evaluation).  Against a server that accepts every
login but answers every authenticated request with 401, an
authenticated call never terminates — for every fuel bound the
embedding is still inside a Logout+Login+replay cycle — because the
replay issued after a 401 passes `allowLogin` through unchanged and the
fresh login has made `hasLoggedIn` true again.  The claimed bound of at
most one re-auth replay per call therefore fails. -/
theorem claim_C1 : ∀ fuel : Nat, doWithAuth srvAlways401 fuel connSt0 = none := by
  intro fuel
  match fuel with
  | 0 => rfl
  | f + 1 =>
    rcases loginCall_always401 f connSt0 rfl with hnone | hsome
    · simp only [connSt0] at hnone
      simp [doWithAuth, hasLoggedIn, connSt0, hnone]
    · simp only [connSt0] at hsome
      simp [doWithAuth, hasLoggedIn, connSt0, hsome, doCall_main_always401]

/-- Witness for C1 at the concrete fuel bound 5. -/
theorem claim_C1_witness : doWithAuth srvAlways401 5 connSt0 = none :=
  claim_C1 5

/-- C6.  `Login`: with a non-empty token it returns success at once,
leaving the state — token and request counters — untouched (no network
call); with no token, a permission-denied outcome of the login request
clears the token and returns the API error, and a successful login
request stores the decoded session key as the token. -/
theorem claim_C6 (srv : Srv) (st : ConnSt) (fuel : Nat) (a : ApiErrorResponse) :
    (st.apikey ≠ "" → 1 ≤ fuel → loginCall srv fuel st = some (st, ⟨none, none⟩)) ∧
    (st.apikey = "" → 2 ≤ fuel →
      srv.login st.loginCalls = ⟨some a, some (.badStatus PermissionDenied)⟩ →
      a.Http = 401 →
      loginCall srv fuel st =
        some (⟨"", st.mainCalls, st.loginCalls + 1⟩, ⟨some a, none⟩)) ∧
    (st.apikey = "" → 2 ≤ fuel → srv.login st.loginCalls = ⟨none, none⟩ →
      loginCall srv fuel st =
        some (⟨srv.key st.loginCalls, st.mainCalls, st.loginCalls + 1⟩, ⟨none, none⟩)) := by
  refine ⟨fun h hf => ?_, fun h hf hlog ha => ?_, fun h hf hlog => ?_⟩
  · obtain ⟨f, rfl⟩ : ∃ f, fuel = f + 1 := ⟨fuel - 1, by omega⟩
    simp [loginCall, h]
  · obtain ⟨f, rfl⟩ : ∃ f, fuel = f + 2 := ⟨fuel - 2, by omega⟩
    simp [loginCall, doCall, netHit, h, hlog, ha, PermissionDenied]
  · obtain ⟨f, rfl⟩ : ∃ f, fuel = f + 2 := ⟨fuel - 2, by omega⟩
    simp [loginCall, doCall, netHit, h, hlog]

/-- Witness for C6: all three clauses at concrete states and servers. -/
theorem claim_C6_witness :
    loginCall srvLoginOk 3 ⟨"tok", 4, 5⟩ = some (⟨"tok", 4, 5⟩, ⟨none, none⟩) ∧
    loginCall srvLogin401 2 connSt0 = some (⟨"", 0, 1⟩, ⟨some err401, none⟩) ∧
    loginCall srvLoginOk 2 connSt0 = some (⟨"sessionkey", 0, 1⟩, ⟨none, none⟩) := by
  refine ⟨(claim_C6 srvLoginOk ⟨"tok", 4, 5⟩ 3 err401).1 (by decide) (by omega), ?_, ?_⟩
  · exact (claim_C6 srvLogin401 connSt0 2 err401).2.1 rfl (by omega) rfl rfl
  · exact (claim_C6 srvLoginOk connSt0 2 err401).2.2 rfl (by omega) rfl

/-- A successful association-list lookup forces a non-empty list. -/
theorem lookup_pos {l : Metadata} {k : String} {v : JVal}
    (h : l.lookup k = some v) : 0 < l.length := by
  cases l with
  | nil => simp [List.lookup] at h
  | cons x xs => simp

/-- When every continuation page succeeds, carries the same total
count and at least one item, the accumulation loop returns the pages
concatenated in fetch order, with offsets advanced by each page's
length, stopping as soon as the accumulated count reaches the total. -/
theorem glLoop_all_ok {α : Type} (cont : Nat → PageResp α) (tcnt : Int) (ldata : Nat)
    (err0 : Option GoError) (hld : ldata ≠ 0)
    (hc : ∀ m, (cont m).apiresp = none ∧ (cont m).err = none ∧
      (cont m).md.lookup "total_count" = some (.num tcnt) ∧ (cont m).data ≠ []) :
    ∀ fuel n params data curData curMd off,
      curMd.lookup "total_count" = some (.num tcnt) →
      tcnt + 1 ≤ ((off + curData.length + fuel : Nat) : Int) →
      1 ≤ fuel →
      glLoop cont ldata err0 fuel n params data curData curMd off =
        (.ok (data ++ pagesSpec cont tcnt fuel n off curData.length) none err0,
          pagesOffsets cont tcnt fuel n off curData.length) := by
  intro fuel
  induction fuel with
  | zero => intro n params data curData curMd off _ _ hf; omega
  | succ f ih =>
    intro n params data curData curMd off hcur harith _
    rw [glLoop, pagesSpec, pagesOffsets]
    simp only [hld, ite_false, hcur, reduceIte]
    by_cases hbreak : tcnt ≤ (off : Int) + (curData.length : Int)
    · simp [hbreak]
    · obtain ⟨hapi, herr, hmd, hne⟩ := hc n
      have hlen : 1 ≤ (cont n).data.length := by
        cases hd : (cont n).data with
        | nil => exact absurd hd hne
        | cons x xs => simp
      have hrec := ih (n + 1) (setOffsetParam params (off + curData.length))
        (data ++ (cont n).data) (cont n).data (cont n).md (off + curData.length)
        hmd
        (by push_cast at harith ⊢; omega)
        (by push_cast at harith hbreak; omega)
      simp [hbreak, hapi, herr, hrec, List.append_assoc]

/-- When the first `k` continuation pages succeed with the same total
count and the accumulated count is still short of the total at every
fetch, a failure of continuation page `k` makes the loop restore the
accumulated data and return it alongside that failure. -/
theorem glLoop_fail_at {α : Type} (cont : Nat → PageResp α) (tcnt : Int) (ldata : Nat)
    (err0 : Option GoError) (hld : ldata ≠ 0) :
    ∀ k n fuel params data curData curMd off,
      curMd.lookup "total_count" = some (.num tcnt) →
      (∀ j, j < k → (cont (n + j)).apiresp = none ∧ (cont (n + j)).err = none ∧
        (cont (n + j)).md.lookup "total_count" = some (.num tcnt)) →
      ((cont (n + k)).apiresp ≠ none ∨ (cont (n + k)).err ≠ none) →
      (∀ o ∈ failOffsets cont n off curData.length k, (o : Int) < tcnt) →
      k + 1 ≤ fuel →
      glLoop cont ldata err0 fuel n params data curData curMd off =
        (.ok (data ++ concatFrom cont n k) (cont (n + k)).apiresp (cont (n + k)).err,
          failOffsets cont n off curData.length k) := by
  intro k
  induction k with
  | zero =>
    intro n fuel params data curData curMd off hcur _ hfail hoff hfuel
    obtain ⟨f, rfl⟩ : ∃ f, fuel = f + 1 := ⟨fuel - 1, by omega⟩
    rw [glLoop]
    have hlt : ((off + curData.length : Nat) : Int) < tcnt := by
      have := hoff (off + curData.length) (by simp [failOffsets])
      exact this
    simp only [Nat.add_zero] at hfail
    simp only [hld, ite_false, hcur, reduceIte, not_le.mpr hlt, hfail,
      concatFrom, failOffsets, List.append_nil]
    simp [hfail]
  | succ k ih =>
    intro n fuel params data curData curMd off hcur hpre hfail hoff hfuel
    obtain ⟨f, rfl⟩ : ∃ f, fuel = f + 1 := ⟨fuel - 1, by omega⟩
    rw [glLoop]
    have hlt : ((off + curData.length : Nat) : Int) < tcnt := by
      exact hoff (off + curData.length) (by simp [failOffsets])
    obtain ⟨hapi, herr, hmd⟩ := by simpa using hpre 0 (by omega)
    have hrec := ih (n + 1) f (setOffsetParam params (off + curData.length))
      (data ++ (cont n).data) (cont n).data (cont n).md (off + curData.length)
      hmd
      (fun j hj => by
        have := hpre (j + 1) (by omega)
        simpa [show n + (j + 1) = n + 1 + j from by omega] using this)
      (by simpa [show n + 1 + k = n + (k + 1) from by omega] using hfail)
      (fun o ho => hoff o (by simp [failOffsets, ho]))
      (by omega)
    have hidx : n + 1 + k = n + (k + 1) := by omega
    have hlt2 : ¬ tcnt ≤ (off : Int) + (curData.length : Int) := by push_cast at hlt; omega
    simp [hld, hcur, hlt2, hapi, herr, hrec, hidx, concatFrom, failOffsets,
      List.append_assoc]

/-- C4 (counterexample).  A successful first page with an *empty* data
list and total count 1 satisfies every premise of the claim (no limit
or offset, success, total count greater than the page's item count),
yet `GetList` issues no continuation fetch and returns the empty result:
the loop variable `ldata` is bound once to 0, so the `ldata != tcnt`
guard (against the shadowed outer `tcnt`, 0) is false. -/
theorem claim_C4_counterexample :
    GetList c4exFirst c4exCont none 10 = (.ok [] none none, []) ∧
    c4exFirst.apiresp = none ∧ c4exFirst.err = none ∧
    c4exFirst.md.lookup "total_count" = some (.num 1) ∧
    ((c4exFirst.data.length : Int) < 1) := by
  exact ⟨by decide, rfl, rfl, by decide, by decide⟩

/-- C4 as amended: with a *non-empty* first page, no explicit limit or
offset, and a total count exceeding the first page's item count,
continuation pages (each successful, non-empty, carrying the same total
count) are fetched at incrementally advanced offsets and appended in
order until the accumulated count reaches or exceeds the total; in
particular a 50-item first page with total count 120 gives exactly
three underlying fetches (at offsets 0, 50, 100) and the 120-item
result in page order. -/
theorem claim_C4_amended :
    (∀ (α : Type) (first : PageResp α) (cont : Nat → PageResp α)
      (params : Option GoStrMap) (fuel : Nat) (tcnt : Int) (lp : ListParams),
      first.apiresp = none → first.err = none →
      first.md.lookup "total_count" = some (.num tcnt) →
      (first.data.length : Int) < tcnt →
      ListParamsFromMap (getParams params) = some lp →
      lp.Limit = 0 → lp.Offset = 0 →
      first.data ≠ [] →
      (∀ m, (cont m).apiresp = none ∧ (cont m).err = none ∧
        (cont m).md.lookup "total_count" = some (.num tcnt) ∧ (cont m).data ≠ []) →
      tcnt + 1 ≤ ((first.data.length + fuel : Nat) : Int) → 1 ≤ fuel →
      GetList first cont params fuel =
        (.ok (first.data ++ pagesSpec cont tcnt fuel 0 0 first.data.length) none none,
          pagesOffsets cont tcnt fuel 0 0 first.data.length)) ∧
    GetList sc4first sc4cont none 200 = (.ok (List.range 120) none none, [50, 100]) := by
  constructor
  · intro α first cont params fuel tcnt lp hapi herr hmd hshort hlp hl0 ho0 hne hc harith hf
    have hld : first.data.length ≠ 0 := by
      cases hd : first.data with
      | nil => exact absurd hd hne
      | cons x xs => simp [hd]
    have h := glLoop_all_ok cont tcnt first.data.length first.err hld hc fuel 0 params
      first.data first.data first.md 0 hmd (by simpa using harith) hf
    rw [herr] at h
    rw [GetList]
    simp [hapi, lookup_pos hmd, hlp, hl0, ho0, h, herr]
  · decide

/-- Witness for the general clause of the amended C4: one 2-item first
page, total count 3, one continuation page of two items. -/
theorem claim_C4_amended_witness :
    GetList (pgOk [10, 11] (mdTC 3)) (fun _ => pgOk [12, 13] (mdTC 3)) none 4 =
      (.ok [10, 11, 12, 13] none none, [2]) := by
  have h := claim_C4_amended.1 Nat (pgOk [10, 11] (mdTC 3)) (fun _ => pgOk [12, 13] (mdTC 3))
    none 4 3 { } rfl rfl (by decide) (by decide) (by decide) rfl rfl (by decide)
    (fun m => ⟨rfl, rfl, rfl, by simp [pgOk]⟩) (by decide) (by decide)
  rw [h]
  decide

/-- C3 (counterexample).  Page 1 holds items `[0, 1]` of a total 4;
the continuation fetch at offset 2 fails with a 400.  `GetList` returns
the page-1 accumulation `[0, 1]` together with the failure — the
accumulated items are restored (`rs.Data = data`), not discarded, and
the failing page's own (empty) envelope data is not what is returned. -/
theorem claim_C3_counterexample :
    GetList c3first c3cont none 10 = (.ok [0, 1] (some err400) none, [2]) ∧
    ([0, 1] : List Nat) ≠ [] := by
  exact ⟨by decide, by decide⟩

/-- C3 as amended: when a continuation fetch fails while paginating,
the items accumulated from the earlier successful pages (page 1 plus
any earlier continuation pages) are restored into the result and
returned together with that failure; the failing page's own data is
discarded. -/
theorem claim_C3_amended {α : Type} (first : PageResp α) (cont : Nat → PageResp α)
    (params : Option GoStrMap) (fuel k : Nat) (tcnt : Int) (lp : ListParams)
    (hapi : first.apiresp = none)
    (hmd : first.md.lookup "total_count" = some (.num tcnt))
    (hlp : ListParamsFromMap (getParams params) = some lp)
    (hl0 : lp.Limit = 0) (ho0 : lp.Offset = 0)
    (hne : first.data ≠ [])
    (hpre : ∀ j, j < k → (cont j).apiresp = none ∧ (cont j).err = none ∧
      (cont j).md.lookup "total_count" = some (.num tcnt))
    (hfail : (cont k).apiresp ≠ none ∨ (cont k).err ≠ none)
    (hoff : ∀ o ∈ failOffsets cont 0 0 first.data.length k, (o : Int) < tcnt)
    (hfuel : k + 1 ≤ fuel) :
    GetList first cont params fuel =
      (.ok (first.data ++ concatFrom cont 0 k) (cont k).apiresp (cont k).err,
        failOffsets cont 0 0 first.data.length k) := by
  have hld : first.data.length ≠ 0 := by
    cases hd : first.data with
    | nil => exact absurd hd hne
    | cons x xs => simp [hd]
  have h := glLoop_fail_at cont tcnt first.data.length first.err hld k 0 fuel params
    first.data first.data first.md 0 hmd (by simpa using hpre) (by simpa using hfail)
    hoff hfuel
  rw [GetList]
  simp only [Nat.zero_add] at h
  simp [hapi, lookup_pos hmd, hlp, hl0, ho0, h]

/-- Witness for the amended C3: the counterexample scenario, reached
through the amended theorem. -/
theorem claim_C3_amended_witness :
    GetList c3first c3cont none 10 = (.ok ([0, 1] ++ []) (some err400) none, [2]) := by
  have h := claim_C3_amended c3first c3cont none 10 0 4 { } rfl (by decide) (by decide)
    rfl rfl (by decide) (fun j hj => absurd hj (by omega))
    (Or.inl (by simp [c3cont, pgFail])) (by decide) (by omega)
  simpa [concatFrom] using h

/-- C10 (counterexample).  A successful first page whose metadata is
non-empty but has no numeric `total_count` does *not* panic when the
page's data list is empty: the `ldata != tcnt` guard is false and the
type assertion inside the loop is never reached. -/
theorem claim_C10_counterexample :
    GetList c10first c10cont none 5 = (.ok [] none none, []) ∧
    c10first.apiresp = none ∧ 0 < c10first.md.length ∧
    c10first.md.lookup "total_count" = none := by
  exact ⟨by decide, rfl, by decide, by decide⟩

/-- C10 as amended: with a *non-empty* first page, a successful first
page whose non-empty metadata lacks a `total_count` key holding a JSON
number makes `GetList` panic on the unchecked
`rs.Metadata["total_count"].(float64)` type assertion instead of
returning an error pair. -/
theorem claim_C10_amended {α : Type} (first : PageResp α) (cont : Nat → PageResp α)
    (params : Option GoStrMap) (fuel : Nat) (lp : ListParams)
    (hapi : first.apiresp = none)
    (hmdlen : 0 < first.md.length)
    (hmd : ∀ q : Int, first.md.lookup "total_count" ≠ some (.num q))
    (hlp : ListParamsFromMap (getParams params) = some lp)
    (hl0 : lp.Limit = 0) (ho0 : lp.Offset = 0)
    (hne : first.data ≠ [])
    (hfuel : 1 ≤ fuel) :
    GetList first cont params fuel = (.panic, []) := by
  obtain ⟨f, rfl⟩ : ∃ f, fuel = f + 1 := ⟨fuel - 1, by omega⟩
  have hld : first.data.length ≠ 0 := by
    cases hd : first.data with
    | nil => exact absurd hd hne
    | cons x xs => simp [hd]
  rw [GetList]
  simp only [hapi, hmdlen, true_and, if_pos, hlp, hl0, ho0, ne_eq, not_true_eq_false,
    or_self, ite_false, reduceIte]
  rw [glLoop]
  rw [if_neg hld]
  cases hl : first.md.lookup "total_count" with
  | none => simp [hl]
  | some v =>
    cases v with
    | num q => exact absurd hl (hmd q)
    | str s => simp [hl]
    | other => simp [hl]

/-- Witness for the amended C10: a one-item first page whose metadata
carries only a string field. -/
theorem claim_C10_amended_witness :
    GetList (⟨none, none, [5], [("a", JVal.str "b")]⟩ : PageResp Nat) c10cont none 3 =
      (.panic, []) := by
  exact claim_C10_amended _ c10cont none 3 { } rfl (by decide)
    (fun q => by simp [List.lookup]) (by decide) rfl rfl (by decide) (by omega)

/-- The ten decimal digit characters behave as expected. -/
theorem decChar_facts (d : Nat) (h : d < 10) :
    ('0' ≤ decChar d ∧ decChar d ≤ '9') ∧ (decChar d).toNat = 48 + d ∧
    decChar d ≠ '_' ∧ decChar d ≠ '-' ∧ decChar d ≠ '+' ∧
    digitVal 10 (decChar d) = some d := by
  interval_cases d <;>
    exact ⟨by decide, by decide, by decide, by decide, by decide, by decide⟩

theorem decChar_ne_zero (d : Nat) (h1 : 1 ≤ d) (h9 : d ≤ 9) : decChar d ≠ '0' := by
  interval_cases d <;> decide

theorem decDigitsRevA_zero (f : Nat) : decDigitsRevA f 0 = [] := by
  cases f <;> rfl

/-- Every character `decDigitsRevA` produces is a decimal digit. -/
theorem decDigitsRevA_digits : ∀ f n, n ≤ f →
    ∀ c ∈ decDigitsRevA f n, ∃ d, d < 10 ∧ c = decChar d := by
  intro f
  induction f with
  | zero =>
    intro n hn c hc
    interval_cases n
    simp [decDigitsRevA] at hc
  | succ f ih =>
    intro n hn c hc
    rw [decDigitsRevA] at hc
    by_cases h0 : n = 0
    · simp [h0] at hc
    · simp only [h0, ite_false, reduceIte, List.mem_cons] at hc
      rcases hc with rfl | hc
      · exact ⟨n % 10, by omega, rfl⟩
      · exact ih (n / 10) (by omega) c hc

/-- The leading (most significant) digit of a non-zero number is
non-zero. -/
theorem decDigitsRevA_head : ∀ f n, n ≤ f → n ≠ 0 →
    ∃ d t, 1 ≤ d ∧ d ≤ 9 ∧ (decDigitsRevA f n).reverse = decChar d :: t := by
  intro f
  induction f with
  | zero => intro n hn h0; omega
  | succ f ih =>
    intro n hn h0
    rw [decDigitsRevA]
    simp only [h0, ite_false, reduceIte]
    by_cases hq : n / 10 = 0
    · rw [hq, decDigitsRevA_zero f]
      exact ⟨n % 10, [], by omega, by omega, by simp⟩
    · obtain ⟨d, t, h1, h9, ht⟩ := ih (n / 10) (by omega) hq
      exact ⟨d, t ++ [decChar (n % 10)], h1, h9, by simp [ht]⟩

/-- Folding the base-10 step over the most-significant-first digits of
`n` recovers `n`. -/
theorem decDigitsRevA_fold : ∀ f n, n ≤ f → ∀ a,
    ((decDigitsRevA f n).reverse).foldl (fun acc c => acc * 10 + (c.toNat - 48)) a =
      a * 10 ^ (decDigitsRevA f n).length + n := by
  intro f
  induction f with
  | zero =>
    intro n hn a
    interval_cases n
    simp [decDigitsRevA]
  | succ f ih =>
    intro n hn a
    rw [decDigitsRevA]
    by_cases h0 : n = 0
    · simp [h0]
    · simp only [h0, ite_false, reduceIte, List.reverse_cons, List.length_cons]
      rw [List.foldl_append, ih (n / 10) (by omega) a]
      simp only [List.foldl_cons, List.foldl_nil]
      rw [(decChar_facts (n % 10) (by omega)).2.1]
      have hsub : 48 + n % 10 - 48 = n % 10 := by omega
      rw [hsub]
      have hexp : (a * 10 ^ (decDigitsRevA f (n / 10)).length + n / 10) * 10 + n % 10 =
          a * (10 ^ (decDigitsRevA f (n / 10)).length * 10) + (n / 10 * 10 + n % 10) := by
        ring
      rw [hexp, pow_succ]
      congr 1
      omega

/-- The digit loop over pure decimal digits is the base-10 fold. -/
theorem digitsLoop_digits : ∀ (l : List Char) (a : Nat),
    (∀ c ∈ l, ∃ d, d < 10 ∧ c = decChar d) →
    digitsLoop 10 a l = some (l.foldl (fun acc c => acc * 10 + (c.toNat - 48)) a) := by
  intro l
  induction l with
  | nil => intro a _; simp [digitsLoop]
  | cons c t ih =>
    intro a h
    obtain ⟨d, hd, rfl⟩ := h c (by simp)
    have hf := decChar_facts d hd
    rw [digitsLoop, if_neg hf.2.2.1, hf.2.2.2.2.2]
    dsimp only
    rw [ih _ (fun c hc => h c (by simp [hc]))]
    simp [hf.2.1]

/-- Pure decimal digits contain no underscore. -/
theorem digits_no_underscore (l : List Char)
    (h : ∀ c ∈ l, ∃ d, d < 10 ∧ c = decChar d) : l.contains '_' = false := by
  have hm : '_' ∉ l := by
    intro hmem
    obtain ⟨d, hd, he⟩ := h '_' hmem
    exact (decChar_facts d hd).2.2.1 he.symm
  simpa using hm

/-- A digit-headed string with a non-zero leading digit parses in
base 10. -/
theorem splitBase_digit (d : Nat) (h1 : 1 ≤ d) (h9 : d ≤ 9) (t : List Char) :
    splitBase (decChar d :: t) = (10, decChar d :: t) := by
  simp [splitBase, decChar_ne_zero d h1 h9]

/-- Parsing the sign-stripped canonical digits of `n ≠ 0` in base 0
succeeds with value `n`. -/
theorem parseDigits_natChars (n : Nat) (h0 : n ≠ 0) :
    ∃ d t, natChars n = decChar d :: t ∧ 1 ≤ d ∧ d ≤ 9 ∧
      splitBase (natChars n) = (10, natChars n) ∧
      digitsLoop 10 0 (natChars n) = some n ∧
      (natChars n).contains '_' = false ∧
      decChar d ≠ '-' ∧ decChar d ≠ '+' := by
  obtain ⟨d, t, h1, h9, hrev⟩ := decDigitsRevA_head n n le_rfl h0
  have hnc : natChars n = decChar d :: t := by
    rw [natChars, if_neg h0, decDigitsRev, hrev]
  have hdig : ∀ c ∈ natChars n, ∃ e, e < 10 ∧ c = decChar e := by
    intro c hc
    rw [natChars, if_neg h0, decDigitsRev] at hc
    exact decDigitsRevA_digits n n le_rfl c (List.mem_reverse.mp hc)
  have hfold := decDigitsRevA_fold n n le_rfl 0
  have hloop : digitsLoop 10 0 (natChars n) = some n := by
    rw [digitsLoop_digits _ 0 hdig]
    rw [natChars, if_neg h0, decDigitsRev, hfold]
    simp
  refine ⟨d, t, hnc, h1, h9, ?_, hloop, digits_no_underscore _ hdig, ?_, ?_⟩
  · rw [hnc]; exact splitBase_digit d h1 h9 t
  · have := decChar_facts d (by omega)
    exact this.2.2.2.1
  · have := decChar_facts d (by omega)
    exact this.2.2.2.2.1

/-- Go `strconv.ParseInt(·, 0, 0)` inverts `strconv.FormatInt(·, 10)` on
every non-zero 64-bit value. -/
theorem parseIntB0_formatInt (v : Int) (h0 : v ≠ 0)
    (hlo : -(2 ^ 63) ≤ v) (hhi : v < 2 ^ 63) :
    parseIntB0 (formatInt v) = some v := by
  have hn0 : v.natAbs ≠ 0 := by omega
  obtain ⟨d, t, hnc, h1, h9, hsplit, hloop, hund, hdm, hdp⟩ := parseDigits_natChars v.natAbs hn0
  have hmem : '_' ∉ decChar d :: t := by
    rw [hnc] at hund
    simpa using hund
  rw [hnc] at hsplit hloop
  by_cases hneg : v < 0
  · have hdata : (formatInt v).data = '-' :: natChars v.natAbs := by
      rw [formatInt, if_pos hneg]
    rw [parseIntB0, hdata, hnc]
    simp [hsplit, hloop, hmem]
    refine ⟨by omega, ?_⟩
    rw [abs_of_neg hneg, neg_neg]
  · have hdata : (formatInt v).data = natChars v.natAbs := by
      rw [formatInt, if_neg hneg]
    rw [parseIntB0, hdata, hnc]
    simp [hdm, hdp, hsplit, hloop, hmem, show ((v.natAbs : Int)) = v from by omega]
    omega

theorem natChars_ne_nil (n : Nat) : natChars n ≠ [] := by
  by_cases h : n = 0
  · simp [natChars, h]
  · obtain ⟨d, t, hnc, _⟩ := parseDigits_natChars n h
    rw [hnc]
    simp

theorem formatInt_ne_empty (v : Int) : formatInt v ≠ "" := by
  intro he
  have hd : (formatInt v).data = [] := by rw [he]
  rw [formatInt] at hd
  by_cases h : v < 0
  · rw [if_pos h] at hd
    exact absurd hd (by simp)
  · rw [if_neg h] at hd
    exact natChars_ne_nil _ hd

theorem ToMap_filter (p : ListParams) : p.ToMap "filter" = p.Filter := by
  by_cases h : p.Filter = "" <;> simp [ListParams.ToMap, h]

theorem ToMap_sort (p : ListParams) : p.ToMap "sort" = p.«Sort» := by
  by_cases h : p.«Sort» = "" <;> simp [ListParams.ToMap, h]

theorem ToMap_limit (p : ListParams) :
    p.ToMap "limit" = if p.Limit = 0 then "" else formatInt p.Limit := by
  by_cases h : p.Limit = 0 <;> simp [ListParams.ToMap, h]

theorem ToMap_offset (p : ListParams) :
    p.ToMap "offset" = if p.Offset = 0 then "" else formatInt p.Offset := by
  by_cases h : p.Offset = 0 <;> simp [ListParams.ToMap, h]

theorem ToMap_other (p : ListParams) (k : String) (h1 : k ≠ "filter")
    (h2 : k ≠ "limit") (h3 : k ≠ "sort") (h4 : k ≠ "offset") : p.ToMap k = "" := by
  simp [ListParams.ToMap, h1, h2, h3, h4]

/-- C9 (counterexample).  The map `{limit: "07"}` has exactly one
entry, numeric (`ParseInt` with base 0 reads it as octal 7) and
non-zero, yet converting it to `ListParams` and back yields
`{limit: "7"}`, a different map: the round trip as claimed fails. -/
theorem claim_C9_counterexample :
    parseIntB0 (c9map "limit") = some 7 ∧ (7 : Int) ≠ 0 ∧
    c9map "filter" = "" ∧ c9map "sort" = "" ∧ c9map "offset" = "" ∧
    ListParamsFromMap c9map = some ⟨"", 7, "", 0⟩ ∧
    ListParams.ToMap ⟨"", 7, "", 0⟩ "limit" = "7" ∧ c9map "limit" = "07" ∧
    ListParams.ToMap ⟨"", 7, "", 0⟩ ≠ c9map := by
  refine ⟨by decide, by decide, rfl, rfl, rfl, by decide, by decide, rfl, fun h => ?_⟩
  exact absurd (congrFun h "limit") (by decide)

/-- C9 as amended: `ToMap` emits exactly the non-empty / non-zero
fields; `ListParamsFromMap` inverts it on every 64-bit value; and
`ToMap` inverts `ListParamsFromMap` on maps whose `limit`/`offset`
entries are in the canonical decimal form `FormatInt` emits (absent
entries meaning zero).  The round trip is lossless on such maps, but
not on every numeric string (see the octal counterexample). -/
theorem claim_C9_amended :
    (∀ (p : ListParams) (k : String),
      p.ToMap "filter" = p.Filter ∧
      p.ToMap "sort" = p.«Sort» ∧
      p.ToMap "limit" = (if p.Limit = 0 then "" else formatInt p.Limit) ∧
      p.ToMap "offset" = (if p.Offset = 0 then "" else formatInt p.Offset) ∧
      (k ≠ "filter" → k ≠ "limit" → k ≠ "sort" → k ≠ "offset" → p.ToMap k = "")) ∧
    (∀ p : ListParams,
      -(2 ^ 63) ≤ p.Limit → p.Limit < 2 ^ 63 →
      -(2 ^ 63) ≤ p.Offset → p.Offset < 2 ^ 63 →
      ListParamsFromMap p.ToMap = some p) ∧
    (∀ (m : GoStrMap) (vl vo : Int),
      ((m "limit" = "" ∧ vl = 0) ∨
        (m "limit" = formatInt vl ∧ vl ≠ 0 ∧ -(2 ^ 63) ≤ vl ∧ vl < 2 ^ 63)) →
      ((m "offset" = "" ∧ vo = 0) ∨
        (m "offset" = formatInt vo ∧ vo ≠ 0 ∧ -(2 ^ 63) ≤ vo ∧ vo < 2 ^ 63)) →
      (∀ k, k ≠ "filter" → k ≠ "limit" → k ≠ "sort" → k ≠ "offset" → m k = "") →
      ListParamsFromMap m = some ⟨m "filter", vl, m "sort", vo⟩ ∧
      ListParams.ToMap ⟨m "filter", vl, m "sort", vo⟩ = m) := by
  refine ⟨fun p k => ⟨ToMap_filter p, ToMap_sort p, ToMap_limit p, ToMap_offset p,
    ToMap_other p k⟩, fun p hl1 hl2 ho1 ho2 => ?_, fun m vl vo hl ho hrest => ?_⟩
  · obtain ⟨fil, lim, srt, off⟩ := p
    rw [ListParamsFromMap]
    rw [ToMap_filter, ToMap_sort, ToMap_limit, ToMap_offset]
    simp only at hl1 hl2 ho1 ho2 ⊢
    by_cases hl : lim = 0 <;> by_cases ho : off = 0
    · simp [hl, ho]
    · simp [hl, ho, formatInt_ne_empty, parseIntB0_formatInt off ho ho1 ho2]
    · simp [hl, ho, formatInt_ne_empty, parseIntB0_formatInt lim hl hl1 hl2]
    · simp [hl, ho, formatInt_ne_empty, parseIntB0_formatInt lim hl hl1 hl2,
        parseIntB0_formatInt off ho ho1 ho2]
  · constructor
    · rw [ListParamsFromMap]
      rcases hl with ⟨hl, rfl⟩ | ⟨hl, hl0, hlr1, hlr2⟩
      · rcases ho with ⟨ho, rfl⟩ | ⟨ho, ho0, hor1, hor2⟩
        · simp [hl, ho]
        · simp [hl, ho, formatInt_ne_empty, parseIntB0_formatInt vo ho0 hor1 hor2]
      · rcases ho with ⟨ho, rfl⟩ | ⟨ho, ho0, hor1, hor2⟩
        · simp [hl, ho, formatInt_ne_empty, parseIntB0_formatInt vl hl0 hlr1 hlr2]
        · simp [hl, ho, formatInt_ne_empty, parseIntB0_formatInt vl hl0 hlr1 hlr2,
            parseIntB0_formatInt vo ho0 hor1 hor2]
    · funext k
      by_cases hf : k = "filter"
      · subst hf; rw [ToMap_filter]
      · by_cases hli : k = "limit"
        · subst hli
          rw [ToMap_limit]
          rcases hl with ⟨hl, rfl⟩ | ⟨hl, hl0, _, _⟩
          · simp [hl]
          · simp [hl0, hl]
        · by_cases hs : k = "sort"
          · subst hs; rw [ToMap_sort]
          · by_cases hof : k = "offset"
            · subst hof
              rw [ToMap_offset]
              rcases ho with ⟨ho, rfl⟩ | ⟨ho, ho0, _, _⟩
              · simp [ho]
              · simp [ho0, ho]
            · rw [ToMap_other _ k hf hli hs hof, hrest k hf hli hs hof]

/-- Witness for the amended C9: a full round trip from params
`{Filter: "f", Limit: 5, Offset: -3}` and one from the canonical map
`{limit: "13"}`. -/
theorem claim_C9_amended_witness :
    ListParamsFromMap (ListParams.ToMap ⟨"f", 5, "", -3⟩) = some ⟨"f", 5, "", -3⟩ ∧
    ListParamsFromMap (fun k => if k = "limit" then "13" else "") =
      some ⟨"", 13, "", 0⟩ ∧
    ListParams.ToMap ⟨"", 13, "", 0⟩ = (fun k => if k = "limit" then "13" else "") := by
  have h2 := claim_C9_amended.2.2 (fun k => if k = "limit" then "13" else "") 13 0
    (Or.inr ⟨by decide, by decide, by decide, by decide⟩) (Or.inl ⟨rfl, rfl⟩)
    (fun k _ h2 _ _ => by simp [h2])
  refine ⟨claim_C9_amended.2.1 ⟨"f", 5, "", -3⟩ (by decide) (by decide) (by decide)
    (by decide), ?_, h2.2⟩
  simpa using h2.1

end DSdk
